import Mathlib

/-! The Tux controller driver (module/tuxctl-ioctl.c)

A shallow embedding of the protocol part of the driver: the packet handler
`tuxctl_handle_packet`, the three request handlers `init`, `set_led` and
`buttons`, and the dispatcher `tuxctl_ioctl`.

Conventions of the embedding.

* A C `char` cell is represented by its 8-bit pattern, a natural number below
  256; every store into a cell truncates modulo 256.  The bit operations the
  driver applies to promoted chars (`& 0xf`, `| 0x10`) only involve the low
  eight bits, so they act on the pattern.
* `unsigned long arg` is a natural number of any width: the driver masks it
  before use.
* Array accesses are checked: an access outside the array makes the function
  return `none`.
* The globals `led_state` and `button_state` live in the record `Tux`, next to
  a log of the buffers handed to `tuxctl_ldisc_put` and a log of the
  `copy_to_user` requests.
-/

namespace Tuxctl

/-! ## Header constants -/

/-- The constants that tuxctl-ioctl.c takes from mtcp.h, tuxctl-ioctl.h and
errno.h.  Their values are not fixed here: they are a parameter of every
function.  The two `Nodup` fields say that the case labels of each `switch`
are pairwise distinct, which C demands of a `switch` statement. -/
structure Header where
  MTCP_ACK : Nat
  MTCP_BIOC_EVENT : Nat
  MTCP_RESET : Nat
  MTCP_POLL_OK : Nat
  MTCP_BIOC_ON : Nat
  MTCP_LED_USR : Nat
  MTCP_LED_SET : Nat
  TUX_INIT : Nat
  TUX_BUTTONS : Nat
  TUX_SET_LED : Nat
  EINVAL : Nat
  packet_labels : [MTCP_ACK, MTCP_BIOC_EVENT, MTCP_RESET, MTCP_POLL_OK].Nodup
  request_labels : [TUX_INIT, TUX_BUTTONS, TUX_SET_LED].Nodup

/-! ## Arrays of chars -/

/-- A C array of `n` chars. -/
abbrev CArray (n : Nat) := Fin n → Nat

/-- The checked read `a[i]`. -/
def CArray.read {n : Nat} (a : CArray n) (i : Nat) : Option Nat :=
  if h : i < n then some (a ⟨i, h⟩) else none

/-- The checked store `a[i] = v`, truncating `v` to a char. -/
def CArray.write {n : Nat} (a : CArray n) (i : Nat) (v : Nat) : Option (CArray n) :=
  if h : i < n then some (Function.update a ⟨i, h⟩ (v % 256)) else none

/-- The `len` chars `a[i], a[i+1], ...` of a buffer, as a callee reads them
that is given the pointer `a + i` and the length `len`. -/
def CArray.readFrom {n : Nat} (a : CArray n) : Nat → Nat → Option (List Nat)
  | _, 0 => some []
  | i, len + 1 =>
    (a.read i).bind fun x => (a.readFrom (i + 1) len).bind fun xs => some (x :: xs)

/-- The loop `for (i = lo; i < lo + n; i++) body`, for a body that leaves `i`
alone. -/
def forLoop {σ : Type} (body : Nat → σ → Option σ) : Nat → Nat → σ → Option σ
  | _, 0, st => some st
  | i, n + 1, st => (body i st).bind (forLoop body (i + 1) n)

/-! ## State -/

/-- The seven segment representation of each digit: `char led_digits[16]`. -/
def led_digits : CArray 16 :=
  ![0xE7, 0x06, 0xCB, 0x8F, 0x2E, 0xAD, 0xED, 0x86,
    0xEF, 0xAE, 0xEE, 0x6D, 0xE1, 0x4F, 0xE9, 0xE8]

/-- The globals of the driver and the two logs of its calls out. -/
structure Tux where
  /-- The global `volatile char led_state[6]`. -/
  led_state : CArray 6
  /-- The global `volatile char button_state[2]`. -/
  button_state : CArray 2
  /-- The buffers handed to `tuxctl_ldisc_put`, oldest first. -/
  tty : List (List Nat)
  /-- The requests made to `copy_to_user`, oldest first: the destination
  address and the 32-bit value of the four source bytes. -/
  uaccess : List (Nat × Nat)

/-- The state at load time, from the initialisers of the two globals. -/
def Tux.initial (K : Header) : Tux where
  led_state := ![K.MTCP_LED_SET % 256, 0xf, 0, 0, 0, 0]
  button_state := ![0, 0]
  tty := []
  uaccess := []

/-- Modelled from the spec: `tuxctl_ldisc_put` of tuxctl-ld.c, the transport's
send primitive, is fire-and-forget and the driver never looks at what it
returns; a call is recorded in the log `tty`. -/
def tuxctl_ldisc_put (s : Tux) (buf : List Nat) : Tux :=
  { s with tty := s.tty ++ [buf] }

/-! ## The packet handler -/

/-- The function `tuxctl_handle_packet` on a packet of three bytes. -/
def tuxctl_handle_packet (K : Header) (packet : CArray 3) (s : Tux) : Option Tux :=
  (packet.read 0).bind fun op =>
  (packet.read 1).bind fun b =>
  (packet.read 2).bind fun c =>
  if op = K.MTCP_ACK then some s
  else if op = K.MTCP_BIOC_EVENT then
    (s.button_state.write 0 b).bind fun bs =>
    (bs.write 1 c).bind fun bs =>
    some { s with button_state := bs }
  else if op = K.MTCP_RESET then
    let data := K.MTCP_BIOC_ON % 256
    let s := tuxctl_ldisc_put s [data]
    let data := K.MTCP_LED_USR % 256
    let s := tuxctl_ldisc_put s [data]
    (s.led_state.readFrom 0 6).bind fun buf =>
    some (tuxctl_ldisc_put s buf)
  else if op = K.MTCP_POLL_OK then some s
  else some s

/-! ## The request handlers -/

/-- The function `init`. -/
def init (K : Header) (s : Tux) : Int × Tux :=
  let cmd := K.MTCP_BIOC_ON % 256
  let s := tuxctl_ldisc_put s [cmd]
  let cmd := K.MTCP_LED_USR % 256
  let s := tuxctl_ldisc_put s [cmd]
  (0, s)

/-- The body of the first loop of `set_led`, for position `i`. -/
def set_led_digit (display digits_on decimals_on : Nat) (i : Nat) (cmd : CArray 6) :
    Option (CArray 6) :=
  (cmd.write (i + 2) 0).bind fun cmd =>
  (if (digits_on >>> i) &&& 0x1 ≠ 0 then
      (led_digits.read ((display >>> (4 * i)) &&& 0xf)).bind fun g => cmd.write (i + 2) g
    else some cmd).bind fun cmd =>
  if (decimals_on >>> i) &&& 0x1 ≠ 0 then
    (cmd.read (i + 2)).bind fun v => cmd.write (i + 2) (v ||| 0x10)
  else some cmd

/-- The body of the second loop of `set_led`: `led_state[i] = cmd[i]`. -/
def set_led_save (cmd : CArray 6) (i : Nat) (led : CArray 6) : Option (CArray 6) :=
  (cmd.read i).bind fun v => led.write i v

/-- The function `set_led`.  The local `cmd` starts with every cell 0: it is
uninitialised in C, and each of its cells is stored to before it is read. -/
def set_led (K : Header) (arg : Nat) (s : Tux) : Option (Int × Tux) :=
  let display := (arg &&& 0xffff) % 2 ^ 16
  let digits_on := ((arg &&& 0x0f0000) >>> 16) % 2 ^ 8
  let decimals_on := ((arg &&& 0x0f000000) >>> 24) % 2 ^ 8
  let cmd : CArray 6 := fun _ => 0
  (cmd.write 0 K.MTCP_LED_SET).bind fun cmd =>
  (cmd.write 1 0xf).bind fun cmd =>
  (forLoop (set_led_digit display digits_on decimals_on) 0 4 cmd).bind fun cmd =>
  (forLoop (set_led_save cmd) 0 6 s.led_state).bind fun led =>
  let s := { s with led_state := led }
  (cmd.readFrom 0 6).bind fun buf =>
  some (0, tuxctl_ldisc_put s buf)

/-- The function `buttons`.  The kernel's `copy_to_user` is the parameter
`copy_to_user`: for a destination address it gives the number of the four
bytes that could not be copied.  The request is recorded in `uaccess`. -/
def buttons (copy_to_user : Nat → Fin 5) (arg : Nat) (s : Tux) : Option (Int × Tux) :=
  (s.button_state.read 0).bind fun b0 =>
  let data := b0 &&& 0xf
  (s.button_state.read 1).bind fun b1 =>
  let data := data ||| ((b1 &&& 0xf) <<< 4)
  let error := (copy_to_user arg).val
  let s := { s with uaccess := s.uaccess ++ [(arg, data % 2 ^ 32)] }
  some (if error ≠ 0 then -1 else 0, s)

/-- The function `tuxctl_ioctl`. -/
def tuxctl_ioctl (K : Header) (copy_to_user : Nat → Fin 5) (cmd arg : Nat) (s : Tux) :
    Option (Int × Tux) :=
  if cmd = K.TUX_INIT then some (init K s)
  else if cmd = K.TUX_BUTTONS then buttons copy_to_user arg s
  else if cmd = K.TUX_SET_LED then set_led K arg s
  else some (-(K.EINVAL : Int), s)

/-- One assignment of the header constants, used to run the driver on
concrete inputs. -/
def header : Header where
  MTCP_ACK := 0x40
  MTCP_BIOC_EVENT := 0x41
  MTCP_RESET := 0x46
  MTCP_POLL_OK := 0x44
  MTCP_BIOC_ON := 0xC3
  MTCP_LED_USR := 0xC7
  MTCP_LED_SET := 0xC6
  TUX_INIT := 0
  TUX_BUTTONS := 2
  TUX_SET_LED := 1
  EINVAL := 22
  packet_labels := by decide
  request_labels := by decide

/-! ## The display command in closed form -/

/-- The byte that the specification gives position `i` of the display for the
packed argument `arg`: the glyph of the position's nibble if the position is
enabled (bit `16 + i`), OR the decimal point `0x10` if the position's decimal
is enabled (bit `24 + i`). -/
def encode_display_byte (arg i : Nat) : Nat :=
  (if arg.testBit (16 + i) then (led_digits.read ((arg >>> (4 * i)) &&& 0xF)).getD 0 else 0) |||
    (if arg.testBit (24 + i) then 0x10 else 0)

/-- The six bytes of the display command of the specification. -/
def encode_display (K : Header) (arg : Nat) : List Nat :=
  [K.MTCP_LED_SET % 256, 0x0F, encode_display_byte arg 0, encode_display_byte arg 1,
    encode_display_byte arg 2, encode_display_byte arg 3]

/-- The six cells of the display command, as an array. -/
def display_cells (K : Header) (arg : Nat) : CArray 6 :=
  ![K.MTCP_LED_SET % 256, 0x0F, encode_display_byte arg 0, encode_display_byte arg 1,
    encode_display_byte arg 2, encode_display_byte arg 3]

/-! ## Sequences of requests and packets -/

/-- What reaches the driver: a host request, with what `copy_to_user` would
report for it, or a packet of three bytes from the device. -/
inductive Event where
  | request (cmd arg : Nat) (uncopied : Fin 5)
  | packet (op b c : Nat)

/-- The driver handles one event. -/
def step (K : Header) (s : Tux) : Event → Option Tux
  | .request cmd arg uncopied => (tuxctl_ioctl K (fun _ => uncopied) cmd arg s).map Prod.snd
  | .packet op b c => tuxctl_handle_packet K ![op, b, c] s

/-- The driver handles a sequence of events, one after the other. -/
def run (K : Header) : List Event → Tux → Option Tux
  | [], s => some s
  | e :: es, s => (step K s e).bind (run K es)

/-- The argument of the most recent SetDisplay request once `e` has been
handled, where `a` was that argument before. -/
def Event.display_arg (K : Header) (a : Nat) : Event → Nat
  | .request cmd arg _ => if cmd = K.TUX_SET_LED then arg else a
  | .packet _ _ _ => a

/-- The argument of the most recent SetDisplay request of a sequence of
events, 0 if it has none. -/
def last_display_arg (K : Header) (es : List Event) : Nat :=
  es.foldl (Event.display_arg K) 0

/-! ## `set_led` cut at an iteration of its second loop -/

/-- The buffer `cmd` as `set_led` has built it when it reaches its second
loop. -/
def set_led_cmd (K : Header) (arg : Nat) : Option (CArray 6) :=
  let display := (arg &&& 0xffff) % 2 ^ 16
  let digits_on := ((arg &&& 0x0f0000) >>> 16) % 2 ^ 8
  let decimals_on := ((arg &&& 0x0f000000) >>> 24) % 2 ^ 8
  let cmd : CArray 6 := fun _ => 0
  (cmd.write 0 K.MTCP_LED_SET).bind fun cmd =>
  (cmd.write 1 0xf).bind fun cmd =>
  forLoop (set_led_digit display digits_on decimals_on) 0 4 cmd

/-- The start of `set_led`, up to the point where its second loop has done `k`
iterations: the state that another context finds if it runs at that point. -/
def set_led_until (K : Header) (arg k : Nat) (s : Tux) : Option Tux :=
  (set_led_cmd K arg).bind fun cmd =>
  (forLoop (set_led_save cmd) 0 k s.led_state).bind fun led =>
  some { s with led_state := led }

/-- The rest of `set_led` from that point: the iterations `k` to 5 of the
second loop, and the send. -/
def set_led_from (K : Header) (arg k : Nat) (s : Tux) : Option (Int × Tux) :=
  (set_led_cmd K arg).bind fun cmd =>
  (forLoop (set_led_save cmd) k (6 - k) s.led_state).bind fun led =>
  let s := { s with led_state := led }
  (cmd.readFrom 0 6).bind fun buf =>
  some (0, tuxctl_ldisc_put s buf)

/-! ## Lemmas on arrays -/

theorem CArray.read_of_lt {n : Nat} (a : CArray n) {i : Nat} (h : i < n) :
    a.read i = some (a ⟨i, h⟩) := by
  simp [CArray.read, h]

theorem CArray.write_of_lt {n : Nat} (a : CArray n) {i : Nat} (h : i < n) (v : Nat) :
    a.write i v = some (Function.update a ⟨i, h⟩ (v % 256)) := by
  simp [CArray.write, h]

theorem led_digits_lt (j : Fin 16) : led_digits j < 256 := by
  revert j
  decide

theorem readFrom_six (a : CArray 6) :
    a.readFrom 0 6 = some [a 0, a 1, a 2, a 3, a 4, a 5] := by
  simp [CArray.readFrom, CArray.read]

/-! ## Lemmas on the bits of the argument -/

theorem and_one_ne_zero_iff (x : Nat) : x &&& 0x1 ≠ 0 ↔ x.testBit 0 = true := by
  rw [Nat.and_one_is_mod, Nat.testBit_to_div_mod]
  simp

theorem digits_on_bit (arg i : Nat) (hi : i < 4) :
    ((((arg &&& 0x0f0000) >>> 16) % 2 ^ 8) >>> i) &&& 0x1 ≠ 0 ↔ arg.testBit (16 + i) = true := by
  rw [and_one_ne_zero_iff, Nat.testBit_shiftRight, Nat.testBit_mod_two_pow,
    Nat.testBit_shiftRight, Nat.testBit_and]
  interval_cases i <;> simp <;> intro _ <;> decide

theorem decimals_on_bit (arg i : Nat) (hi : i < 4) :
    ((((arg &&& 0x0f000000) >>> 24) % 2 ^ 8) >>> i) &&& 0x1 ≠ 0 ↔
      arg.testBit (24 + i) = true := by
  rw [and_one_ne_zero_iff, Nat.testBit_shiftRight, Nat.testBit_mod_two_pow,
    Nat.testBit_shiftRight, Nat.testBit_and]
  interval_cases i <;> simp <;> intro _ <;> decide

theorem and_0xf (x : Nat) : x &&& 0xf = x % 16 := Nat.and_pow_two_sub_one_eq_mod x 4

theorem display_nibble (arg i : Nat) (hi : i < 4) :
    ((((arg &&& 0xffff) % 2 ^ 16) >>> (4 * i)) &&& 0xf) = ((arg >>> (4 * i)) &&& 0xf) := by
  have h16 : arg &&& 0xffff = arg % 2 ^ 16 := Nat.and_pow_two_sub_one_eq_mod arg 16
  rw [h16, and_0xf, and_0xf, Nat.shiftRight_eq_div_pow, Nat.shiftRight_eq_div_pow]
  interval_cases i <;> omega

/-! ## The two loops of `set_led` -/

theorem glyph_or_point_lt (j : Fin 16) : led_digits j ||| 0x10 < 256 :=
  Nat.or_lt_two_pow (n := 8) (led_digits_lt j) (by decide)

theorem set_led_digit_eq (arg i : Nat) (hi : i < 4) (cmd : CArray 6) :
    set_led_digit ((arg &&& 0xffff) % 2 ^ 16) (((arg &&& 0x0f0000) >>> 16) % 2 ^ 8)
        (((arg &&& 0x0f000000) >>> 24) % 2 ^ 8) i cmd
      = some (Function.update cmd ⟨i + 2, by omega⟩ (encode_display_byte arg i)) := by
  have h2 : i + 2 < 6 := by omega
  have hn : (arg >>> (4 * i)) &&& 0xf < 16 := by rw [and_0xf]; omega
  unfold set_led_digit encode_display_byte
  simp only [digits_on_bit arg i hi, decimals_on_bit arg i hi, display_nibble arg i hi]
  rw [CArray.write_of_lt _ h2]
  by_cases hd : arg.testBit (16 + i) = true <;> by_cases hp : arg.testBit (24 + i) = true <;>
    simp [hd, hp, CArray.read_of_lt _ hn, CArray.write_of_lt _ h2, CArray.read_of_lt _ h2,
      Nat.mod_eq_of_lt (led_digits_lt _), Nat.mod_eq_of_lt (glyph_or_point_lt _)]

theorem encode_display_byte_lt (arg i : Nat) : encode_display_byte arg i < 256 := by
  unfold encode_display_byte
  apply Nat.or_lt_two_pow (n := 8)
  · split
    · unfold CArray.read
      split
      · exact led_digits_lt _
      · decide
    · decide
  · split <;> decide

theorem display_cells_lt (K : Header) (arg : Nat) (j : Fin 6) : display_cells K arg j < 256 := by
  match j with
  | ⟨0, _⟩ => exact Nat.mod_lt _ (by decide)
  | ⟨1, _⟩ => exact (by decide : 0x0F < 256)
  | ⟨2, _⟩ => exact encode_display_byte_lt arg 0
  | ⟨3, _⟩ => exact encode_display_byte_lt arg 1
  | ⟨4, _⟩ => exact encode_display_byte_lt arg 2
  | ⟨5, _⟩ => exact encode_display_byte_lt arg 3

theorem set_led_save_loop (cmd led : CArray 6) (h : ∀ j, cmd j < 256) :
    forLoop (set_led_save cmd) 0 6 led = some cmd := by
  simp [forLoop, set_led_save, CArray.write, CArray.read]
  funext j
  fin_cases j <;> simp [Function.update, Nat.mod_eq_of_lt (h _)]

theorem set_led_eq (K : Header) (arg : Nat) (s : Tux) :
    set_led K arg s = some (0, { s with led_state := display_cells K arg,
                                        tty := s.tty ++ [encode_display K arg] }) := by
  have hcmd : forLoop (set_led_digit ((arg &&& 0xffff) % 2 ^ 16)
      (((arg &&& 0x0f0000) >>> 16) % 2 ^ 8) (((arg &&& 0x0f000000) >>> 24) % 2 ^ 8)) 0 4
      (Function.update (Function.update (fun _ => 0) 0 (K.MTCP_LED_SET % 256)) 1 (0xf % 256))
      = some (display_cells K arg) := by
    simp only [forLoop, Nat.zero_add, Nat.reduceAdd, set_led_digit_eq arg 0 (by decide),
      set_led_digit_eq arg 1 (by decide), set_led_digit_eq arg 2 (by decide),
      set_led_digit_eq arg 3 (by decide), Option.some_bind]
    congr 1
    funext j
    fin_cases j <;> rfl
  unfold set_led
  simp only [CArray.write_of_lt _ (show 0 < 6 by decide), CArray.write_of_lt _ (show 1 < 6 by decide),
    Option.some_bind, Fin.mk_zero, Fin.mk_one]
  rw [hcmd]
  simp only [Option.some_bind, set_led_save_loop _ _ (display_cells_lt K arg), readFrom_six,
    tuxctl_ldisc_put]
  rfl

/-! ## Lemmas on the two switches -/

theorem packet_labels_ne (K : Header) :
    K.MTCP_ACK ≠ K.MTCP_BIOC_EVENT ∧ K.MTCP_ACK ≠ K.MTCP_RESET ∧ K.MTCP_ACK ≠ K.MTCP_POLL_OK ∧
      K.MTCP_BIOC_EVENT ≠ K.MTCP_RESET ∧ K.MTCP_BIOC_EVENT ≠ K.MTCP_POLL_OK ∧
      K.MTCP_RESET ≠ K.MTCP_POLL_OK := by
  have h := K.packet_labels
  simp only [List.nodup_cons, List.mem_cons, List.mem_singleton, not_or, List.not_mem_nil,
    not_false_eq_true, List.nodup_nil, and_true] at h
  tauto

theorem request_labels_ne (K : Header) :
    K.TUX_INIT ≠ K.TUX_BUTTONS ∧ K.TUX_INIT ≠ K.TUX_SET_LED ∧ K.TUX_BUTTONS ≠ K.TUX_SET_LED := by
  have h := K.request_labels
  simp only [List.nodup_cons, List.mem_cons, List.mem_singleton, not_or, List.not_mem_nil,
    not_false_eq_true, List.nodup_nil, and_true] at h
  tauto

theorem handle_packet_switch (K : Header) (op b c : Nat) (s : Tux) :
    tuxctl_handle_packet K ![op, b, c] s =
      if op = K.MTCP_ACK then some s
      else if op = K.MTCP_BIOC_EVENT then
        some { s with button_state := ![b % 256, c % 256] }
      else if op = K.MTCP_RESET then
        some { s with tty := s.tty ++ [[K.MTCP_BIOC_ON % 256], [K.MTCP_LED_USR % 256],
          List.ofFn s.led_state] }
      else some s := by
  have e0 : CArray.read ![op, b, c] 0 = some op := rfl
  have e1 : CArray.read ![op, b, c] 1 = some b := rfl
  have e2 : CArray.read ![op, b, c] 2 = some c := rfl
  have eb : (s.button_state.write 0 b).bind (fun bs => (bs.write 1 c).bind fun bs =>
      some { s with button_state := bs }) = some { s with button_state := ![b % 256, c % 256] } := by
    simp only [CArray.write_of_lt _ (show 0 < 2 by decide),
      CArray.write_of_lt _ (show 1 < 2 by decide), Option.some_bind]
    congr 2
    funext j
    fin_cases j <;> rfl
  unfold tuxctl_handle_packet
  simp only [e0, e1, e2, Option.some_bind, eb, tuxctl_ldisc_put, readFrom_six, ite_self,
    List.append_assoc, List.singleton_append]
  rfl

theorem ioctl_init (K : Header) (ctu : Nat → Fin 5) (arg : Nat) (s : Tux) :
    tuxctl_ioctl K ctu K.TUX_INIT arg s = some (init K s) := by
  simp [tuxctl_ioctl]

theorem ioctl_buttons (K : Header) (ctu : Nat → Fin 5) (arg : Nat) (s : Tux) :
    tuxctl_ioctl K ctu K.TUX_BUTTONS arg s = buttons ctu arg s := by
  have h := request_labels_ne K
  simp [tuxctl_ioctl, h.1.symm]

theorem ioctl_set_led (K : Header) (ctu : Nat → Fin 5) (arg : Nat) (s : Tux) :
    tuxctl_ioctl K ctu K.TUX_SET_LED arg s = set_led K arg s := by
  have h := request_labels_ne K
  simp [tuxctl_ioctl, h.2.1.symm, h.2.2.symm]

theorem ioctl_default (K : Header) (ctu : Nat → Fin 5) (cmd arg : Nat) (s : Tux)
    (h1 : cmd ≠ K.TUX_INIT) (h2 : cmd ≠ K.TUX_BUTTONS) (h3 : cmd ≠ K.TUX_SET_LED) :
    tuxctl_ioctl K ctu cmd arg s = some (-(K.EINVAL : Int), s) := by
  simp [tuxctl_ioctl, h1, h2, h3]

/-! ## The display command -/

/-- C1: for every packed argument `arg` (and every state), `set_led` returns and hands exactly
one buffer of 6 bytes to the transport; byte 0 is MTCP_LED_SET and byte 1 is 0x0F, and for each
position `i` of 0..3 byte `i + 2` is `G ||| D`, where `G` is the entry of `led_digits` at the
nibble `(arg >> 4*i) & 0xF` if bit `16 + i` of `arg` is set and 0 otherwise, and `D` is 0x10 if
bit `24 + i` of `arg` is set and 0 otherwise.  MTCP_LED_SET is taken modulo 256, as a char. -/
theorem set_led_bytes (K : Header) (arg : Nat) (s : Tux) :
    ∃ (cmd : List Nat) (s1 : Tux), set_led K arg s = some (0, s1) ∧
      s1.tty = s.tty ++ [cmd] ∧ cmd.length = 6 ∧
      cmd[0]? = some (K.MTCP_LED_SET % 256) ∧ cmd[1]? = some 0x0F ∧
      ∀ i : Fin 4, ∃ g, led_digits.read ((arg >>> (4 * i.val)) &&& 0xF) = some g ∧
        cmd[i.val + 2]? = some ((if arg.testBit (16 + i.val) then g else 0) |||
          (if arg.testBit (24 + i.val) then 0x10 else 0)) := by
  refine ⟨encode_display K arg, _, set_led_eq K arg s, rfl, rfl, rfl, rfl, ?_⟩
  intro i
  have hn : (arg >>> (4 * i.val)) &&& 0xF < 16 := by rw [and_0xf]; omega
  refine ⟨led_digits ⟨_, hn⟩, CArray.read_of_lt _ hn, ?_⟩
  have hb : ∀ j, encode_display_byte arg j =
      ((if arg.testBit (16 + j) then (led_digits.read ((arg >>> (4 * j)) &&& 0xF)).getD 0 else 0) |||
        (if arg.testBit (24 + j) then 0x10 else 0)) := fun _ => rfl
  have hg := CArray.read_of_lt led_digits hn
  have hc : (encode_display K arg)[i.val + 2]? = some (encode_display_byte arg i.val) := by
    fin_cases i <;> rfl
  rw [hc, hb, hg]
  rfl

/-- C2, as the specification states it, fails: after Initialize, SetDisplay(0x00000F01) has
bits 16..19 clear, so no digit is enabled and the display bytes are
`[MTCP_LED_SET, 0x0F, 0, 0, 0, 0]`, not `[MTCP_LED_SET, 0x0F, 6, 6, 6, 6]`. -/
theorem scenario_0F01_refuted :
    ((tuxctl_ioctl header (fun _ => 0) header.TUX_INIT 0 (Tux.initial header)).bind fun r1 =>
      (tuxctl_ioctl header (fun _ => 0) header.TUX_SET_LED 0x00000F01 r1.2).bind fun r2 =>
        some (r1.1, r2.1, r2.2.tty))
      = some (0, 0, [[header.MTCP_BIOC_ON], [header.MTCP_LED_USR],
          [header.MTCP_LED_SET, 0x0F, 0, 0, 0, 0]]) ∧
    ((tuxctl_ioctl header (fun _ => 0) header.TUX_INIT 0 (Tux.initial header)).bind fun r1 =>
      (tuxctl_ioctl header (fun _ => 0) header.TUX_SET_LED 0x00000F01 r1.2).bind fun r2 =>
        some (r1.1, r2.1, r2.2.tty))
      ≠ some (0, 0, [[header.MTCP_BIOC_ON], [header.MTCP_LED_USR],
          [header.MTCP_LED_SET, 0x0F, 0x06, 0x06, 0x06, 0x06]]) := by
  constructor
  · rfl
  · decide

/-- C2, amended: from the initial state, Initialize followed by SetDisplay(0x000F1111) (digit
glyphs all "1", all 4 digits enabled, no decimals) both succeed, and the sends are the two
control bytes and then the display bytes `[MTCP_LED_SET, 0x0F, 0x06, 0x06, 0x06, 0x06]`. -/
theorem scenario_all_ones (K : Header) (ctu : Nat → Fin 5) (a : Nat) :
    ((tuxctl_ioctl K ctu K.TUX_INIT a (Tux.initial K)).bind fun r1 =>
      (tuxctl_ioctl K ctu K.TUX_SET_LED 0x000F1111 r1.2).bind fun r2 =>
        some (r1.1, r2.1, r2.2.tty))
      = some (0, 0, [[K.MTCP_BIOC_ON % 256], [K.MTCP_LED_USR % 256],
          [K.MTCP_LED_SET % 256, 0x0F, 0x06, 0x06, 0x06, 0x06]]) := by
  rw [ioctl_init, Option.some_bind, ioctl_set_led, set_led_eq]
  rfl

/-- C3: for every argument `X` and every prior state, SetDisplay(X) retains in `led_state` the
6 bytes it transmits, and a packet with opcode MTCP_RESET that follows makes
`tuxctl_handle_packet` perform exactly three sends, in this order: the byte MTCP_BIOC_ON, the
byte MTCP_LED_USR, and those same 6 bytes (the encoding of `X`, whatever the prior state). -/
theorem reset_recovery (K : Header) (X : Nat) (s : Tux) (b c : Nat) :
    ∃ (cmd : List Nat) (s1 s2 : Tux), set_led K X s = some (0, s1) ∧
      cmd.length = 6 ∧ List.ofFn s1.led_state = cmd ∧ s1.tty = s.tty ++ [cmd] ∧
      cmd = encode_display K X ∧
      tuxctl_handle_packet K ![K.MTCP_RESET, b, c] s1 = some s2 ∧
      s2.tty = s1.tty ++ [[K.MTCP_BIOC_ON % 256], [K.MTCP_LED_USR % 256], cmd] := by
  have h := packet_labels_ne K
  have hp : ∀ s1 : Tux, tuxctl_handle_packet K ![K.MTCP_RESET, b, c] s1 =
      some { s1 with tty := s1.tty ++ [[K.MTCP_BIOC_ON % 256], [K.MTCP_LED_USR % 256],
        List.ofFn s1.led_state] } := by
    intro s1
    rw [handle_packet_switch, if_neg h.2.1.symm, if_neg h.2.2.2.1.symm, if_pos rfl]
  exact ⟨encode_display K X, _, _, set_led_eq K X s, rfl, rfl, rfl, rfl, hp _, rfl⟩

/-! ## The buttons -/

theorem pack_nibbles (x y : Nat) (hx : x < 16) (hy : y < 16) :
    x ||| (y <<< 4) = x + 16 * y := by
  have h : ∀ u v : Fin 16, u.val ||| (v.val <<< 4) = u.val + 16 * v.val := by decide
  exact h ⟨x, hx⟩ ⟨y, hy⟩

theorem pack_buttons (b c : Nat) :
    (b &&& 0xf) ||| ((c &&& 0xf) <<< 4) = b % 16 + 16 * (c % 16) := by
  rw [and_0xf, and_0xf]
  exact pack_nibbles _ _ (Nat.mod_lt _ (by decide)) (Nat.mod_lt _ (by decide))

theorem buttons_eq (ctu : Nat → Fin 5) (arg : Nat) (s : Tux) :
    buttons ctu arg s = some (if (ctu arg).val ≠ 0 then -1 else 0,
      { s with uaccess := s.uaccess ++
        [(arg, s.button_state 0 % 16 + 16 * (s.button_state 1 % 16))] }) := by
  have hv : ((s.button_state 0 &&& 0xf) ||| ((s.button_state 1 &&& 0xf) <<< 4)) % 2 ^ 32 =
      s.button_state 0 % 16 + 16 * (s.button_state 1 % 16) := by
    rw [pack_buttons]
    omega
  unfold buttons
  simp only [CArray.read_of_lt _ (show 0 < 2 by decide), CArray.read_of_lt _ (show 1 < 2 by decide),
    Option.some_bind, Fin.mk_zero, Fin.mk_one, hv]

/-- C4: for all raw bytes `b` and `c`, after a packet (MTCP_BIOC_EVENT, b, c) a ReadButtons whose
copy to the caller succeeds returns 0 and hands `copy_to_user` the 32-bit value
`(b & 0xF) | ((c & 0xF) << 4)`: its bits 0-3 are the low nibble of `b`, its bits 4-7 the low
nibble of `c`, its bits 8-31 are zero, and for `b = 0x05`, `c = 0x0A` it is 0x000000A5. -/
theorem buttons_after_event (K : Header) (ctu : Nat → Fin 5) (b c arg : Nat) (s : Tux)
    (hok : ctu arg = 0) :
    ∃ (v : Nat) (s1 s2 : Tux),
      tuxctl_handle_packet K ![K.MTCP_BIOC_EVENT, b, c] s = some s1 ∧
      buttons ctu arg s1 = some (0, s2) ∧ s2.uaccess = s1.uaccess ++ [(arg, v)] ∧
      v = (b &&& 0xF) ||| ((c &&& 0xF) <<< 4) ∧
      v % 16 = b % 16 ∧ v / 16 % 16 = c % 16 ∧ v / 256 = 0 ∧
      (b = 0x05 → c = 0x0A → v = 0x000000A5) := by
  have h := packet_labels_ne K
  have hp : tuxctl_handle_packet K ![K.MTCP_BIOC_EVENT, b, c] s =
      some { s with button_state := ![b % 256, c % 256] } := by
    rw [handle_packet_switch, if_neg h.1.symm, if_pos rfl]
  have hb := buttons_eq ctu arg { s with button_state := ![b % 256, c % 256] }
  have hv : (b &&& 0xF) ||| ((c &&& 0xF) <<< 4) = b % 16 + 16 * (c % 16) := pack_buttons b c
  have h0 : ((![b % 256, c % 256] : CArray 2) 0) = b % 256 := rfl
  have h1 : ((![b % 256, c % 256] : CArray 2) 1) = c % 256 := rfl
  simp only [hok, Fin.val_zero, ne_eq, not_true_eq_false, if_false, h0, h1] at hb
  have hm : b % 256 % 16 + 16 * (c % 256 % 16) = b % 16 + 16 * (c % 16) := by omega
  rw [hm] at hb
  refine ⟨b % 16 + 16 * (c % 16), _, _, hp, hb, rfl, hv.symm, ?_, ?_, ?_, ?_⟩
  · omega
  · omega
  · omega
  · intro hb5 hc
    subst hb5 hc
    rfl

/-- C4, at an input: with a `copy_to_user` that always succeeds, the event bytes 0x05 and 0x0A
make ReadButtons deliver 0xA5. -/
theorem buttons_after_event_witness :
    (fun _ => 0 : Nat → Fin 5) 0 = 0 ∧
    ∃ (v : Nat) (s1 s2 : Tux),
      tuxctl_handle_packet header ![header.MTCP_BIOC_EVENT, 0x05, 0x0A] (Tux.initial header)
        = some s1 ∧
      buttons (fun _ => 0) 0 s1 = some (0, s2) ∧ s2.uaccess = s1.uaccess ++ [(0, v)] ∧
      v = (0x05 &&& 0xF) ||| ((0x0A &&& 0xF) <<< 4) ∧
      v % 16 = 0x05 % 16 ∧ v / 16 % 16 = 0x0A % 16 ∧ v / 256 = 0 ∧
      (0x05 = 0x05 → 0x0A = 0x0A → v = 0x000000A5) :=
  ⟨rfl, buttons_after_event header (fun _ => 0) 0x05 0x0A 0 (Tux.initial header) rfl⟩

/-! ## Algebraic properties of SetDisplay -/

/-- C5: for every argument and every starting state, `set_led` called twice in a row with the
same argument leaves `led_state` and `button_state` as they are after the first call. -/
theorem set_led_idempotent (K : Header) (arg : Nat) (s : Tux) :
    ∃ s1 s2 : Tux, set_led K arg s = some (0, s1) ∧ set_led K arg s1 = some (0, s2) ∧
      s2.led_state = s1.led_state ∧ s2.button_state = s1.button_state :=
  ⟨_, _, set_led_eq K arg s, set_led_eq K arg _, rfl, rfl⟩

theorem set_led_masked (K : Header) (a : Nat) (s : Tux) :
    set_led K (a &&& 0x0F0FFFFF) s = set_led K a s := by
  have h1 : (a &&& 0x0F0FFFFF) &&& 0xffff = a &&& 0xffff := by rw [Nat.and_assoc]; rfl
  have h2 : (a &&& 0x0F0FFFFF) &&& 0x0f0000 = a &&& 0x0f0000 := by rw [Nat.and_assoc]; rfl
  have h3 : (a &&& 0x0F0FFFFF) &&& 0x0f000000 = a &&& 0x0f000000 := by rw [Nat.and_assoc]; rfl
  unfold set_led
  rw [h1, h2, h3]

/-- C6: two arguments that agree on the bits of the mask 0x0F0FFFFF, so that they differ only in
bits 20-23 and in bits 28 and above, make `set_led` started from the same state return the same
result: the same return value, the same retained `led_state` and the same 6 bytes sent. -/
theorem set_led_high_bits_ignored (K : Header) (a1 a2 : Nat) (s : Tux)
    (h : a1 &&& 0x0F0FFFFF = a2 &&& 0x0F0FFFFF) :
    ∃ (cmd : List Nat) (s1 : Tux), set_led K a1 s = some (0, s1) ∧ set_led K a2 s = some (0, s1) ∧
      s1.tty = s.tty ++ [cmd] ∧ cmd.length = 6 := by
  have e1 := set_led_masked K a1 s
  have e2 := set_led_masked K a2 s
  rw [h] at e1
  exact ⟨encode_display K a1, _, set_led_eq K a1 s, by rw [← e2, e1, set_led_eq], rfl, rfl⟩

/-- C6, at an input: 0x000F1234 and 0xF0FF1234 differ in bits 20-23 and 28-31 only. -/
theorem set_led_high_bits_ignored_witness :
    (0x000F1234 &&& 0x0F0FFFFF = 0xF0FF1234 &&& 0x0F0FFFFF) ∧
    ∃ (cmd : List Nat) (s1 : Tux), set_led header 0x000F1234 (Tux.initial header) = some (0, s1) ∧
      set_led header 0xF0FF1234 (Tux.initial header) = some (0, s1) ∧
      s1.tty = (Tux.initial header).tty ++ [cmd] ∧ cmd.length = 6 :=
  ⟨by decide, set_led_high_bits_ignored header 0x000F1234 0xF0FF1234 (Tux.initial header)
    (by decide)⟩

/-! ## Requests and packets that do nothing -/

/-- C7: for a request id that is none of TUX_INIT, TUX_BUTTONS and TUX_SET_LED, and for every
argument and state, `tuxctl_ioctl` returns `-EINVAL` and leaves the whole state as it is: nothing
is sent, and `led_state` and `button_state` are unchanged. -/
theorem ioctl_unknown_request (K : Header) (ctu : Nat → Fin 5) (cmd arg : Nat) (s : Tux)
    (h1 : cmd ≠ K.TUX_INIT) (h2 : cmd ≠ K.TUX_BUTTONS) (h3 : cmd ≠ K.TUX_SET_LED) :
    tuxctl_ioctl K ctu cmd arg s = some (-(K.EINVAL : Int), s) := by
  simp [tuxctl_ioctl, h1, h2, h3]

/-- C7, at an input: request id 7 is not one of the three of `header`. -/
theorem ioctl_unknown_request_witness :
    (7 ≠ header.TUX_INIT ∧ 7 ≠ header.TUX_BUTTONS ∧ 7 ≠ header.TUX_SET_LED) ∧
    tuxctl_ioctl header (fun _ => 0) 7 0x000F1234 (Tux.initial header)
      = some (-(header.EINVAL : Int), Tux.initial header) :=
  ⟨by decide, ioctl_unknown_request header (fun _ => 0) 7 0x000F1234 (Tux.initial header)
    (by decide) (by decide) (by decide)⟩

/-- C8: for a packet whose opcode is MTCP_ACK, MTCP_POLL_OK, or any value other than
MTCP_BIOC_EVENT and MTCP_RESET, for all bytes `b` and `c` and every state,
`tuxctl_handle_packet` returns with the whole state as it was: `led_state` and `button_state`
are unchanged and nothing is sent. -/
theorem packet_ignored (K : Header) (op b c : Nat) (s : Tux)
    (h : op = K.MTCP_ACK ∨ op = K.MTCP_POLL_OK ∨
      (op ≠ K.MTCP_BIOC_EVENT ∧ op ≠ K.MTCP_RESET)) :
    tuxctl_handle_packet K ![op, b, c] s = some s := by
  have hl := packet_labels_ne K
  rw [handle_packet_switch]
  rcases h with h | h | ⟨h1, h2⟩
  · rw [if_pos h]
  · subst h
    rw [if_neg hl.2.2.2.2.1.symm, if_neg hl.2.2.2.2.2.symm, ite_self]
  · rw [if_neg h1, if_neg h2, ite_self]

/-- C8, at an input: the opcode MTCP_POLL_OK of `header`. -/
theorem packet_ignored_witness :
    (header.MTCP_POLL_OK = header.MTCP_ACK ∨ header.MTCP_POLL_OK = header.MTCP_POLL_OK ∨
      (header.MTCP_POLL_OK ≠ header.MTCP_BIOC_EVENT ∧ header.MTCP_POLL_OK ≠ header.MTCP_RESET)) ∧
    tuxctl_handle_packet header ![header.MTCP_POLL_OK, 0x05, 0x0A] (Tux.initial header)
      = some (Tux.initial header) :=
  ⟨Or.inr (Or.inl rfl), packet_ignored header header.MTCP_POLL_OK 0x05 0x0A (Tux.initial header)
    (Or.inr (Or.inl rfl))⟩

/-! ## Initialize and SetDisplay always succeed -/

/-- C9: for every state, `init` returns 0, performs exactly two sends of one byte each, first
MTCP_BIOC_ON and then MTCP_LED_USR (as chars), and leaves `led_state` and `button_state`
unchanged. -/
theorem init_sends (K : Header) (s : Tux) :
    (init K s).1 = 0 ∧
      (init K s).2.tty = s.tty ++ [[K.MTCP_BIOC_ON % 256], [K.MTCP_LED_USR % 256]] ∧
      (init K s).2.led_state = s.led_state ∧ (init K s).2.button_state = s.button_state := by
  simp [init, tuxctl_ldisc_put]

/-- C10: for every argument and every state, `set_led` returns 0, performs exactly one send, of
6 bytes, and afterwards `led_state` holds, byte for byte, the 6 bytes it sent. -/
theorem set_led_retains (K : Header) (arg : Nat) (s : Tux) :
    ∃ (cmd : List Nat) (s1 : Tux), set_led K arg s = some (0, s1) ∧
      s1.tty = s.tty ++ [cmd] ∧ cmd.length = 6 ∧ List.ofFn s1.led_state = cmd :=
  ⟨encode_display K arg, _, set_led_eq K arg s, rfl, rfl, rfl⟩

/-! ## ReadButtons and its failure -/

/-- C11: `buttons` returns 0 exactly when `copy_to_user` reports no byte left uncopied, and
returns its failure result, -1, otherwise; in both cases it sends nothing and leaves `led_state`
and `button_state` unchanged. -/
theorem buttons_result (ctu : Nat → Fin 5) (arg : Nat) (s : Tux) :
    ∃ (r : Int) (s1 : Tux), buttons ctu arg s = some (r, s1) ∧
      (r = 0 ↔ ctu arg = 0) ∧ (r = 0 ∨ r = -1) ∧
      s1.tty = s.tty ∧ s1.led_state = s.led_state ∧ s1.button_state = s.button_state := by
  refine ⟨_, _, buttons_eq ctu arg s, ?_, ?_, rfl, rfl, rfl⟩
  · by_cases h : ctu arg = 0
    · simp [h]
    · have hv : (ctu arg).val ≠ 0 := fun hv => h (Fin.ext hv)
      simp [h, hv]
  · by_cases hv : (ctu arg).val = 0
    · simp [hv]
    · simp [hv]

/-! ## Who writes which global -/

theorem handle_packet_led_state (K : Header) (op b c : Nat) (s : Tux) :
    ∃ s1, tuxctl_handle_packet K ![op, b, c] s = some s1 ∧ s1.led_state = s.led_state := by
  rw [handle_packet_switch]
  split_ifs <;> exact ⟨_, rfl, rfl⟩

/-- C14: `init`, `buttons` and `tuxctl_handle_packet` for every opcode leave `led_state`
unchanged, and `init`, `set_led`, `buttons` and `tuxctl_handle_packet` for every opcode other
than MTCP_BIOC_EVENT leave `button_state` unchanged; each of them returns. -/
theorem state_ownership (K : Header) (ctu : Nat → Fin 5) (arg op b c : Nat) (s : Tux) :
    ((init K s).2.led_state = s.led_state ∧ (init K s).2.button_state = s.button_state) ∧
    (∃ r s1, buttons ctu arg s = some (r, s1) ∧
      s1.led_state = s.led_state ∧ s1.button_state = s.button_state) ∧
    (∃ r s1, set_led K arg s = some (r, s1) ∧ s1.button_state = s.button_state) ∧
    (∃ s1, tuxctl_handle_packet K ![op, b, c] s = some s1 ∧ s1.led_state = s.led_state ∧
      (op ≠ K.MTCP_BIOC_EVENT → s1.button_state = s.button_state)) := by
  refine ⟨⟨rfl, rfl⟩, ⟨_, _, buttons_eq ctu arg s, rfl, rfl⟩, ⟨_, _, set_led_eq K arg s, rfl⟩, ?_⟩
  rw [handle_packet_switch]
  split_ifs with h1 h2 h3
  · exact ⟨_, rfl, rfl, fun _ => rfl⟩
  · exact ⟨_, rfl, rfl, fun h => absurd h2 h⟩
  · exact ⟨_, rfl, rfl, fun _ => rfl⟩
  · exact ⟨_, rfl, rfl, fun _ => rfl⟩

/-- C15: for every packet (MTCP_BIOC_EVENT, b, c) with bytes `b` and `c` and every state,
`tuxctl_handle_packet` makes `button_state` exactly `(b, c)`, whatever it held before, sends
nothing, and leaves `led_state` as it was. -/
theorem button_event_recorded (K : Header) (b c : Nat) (s : Tux) (hb : b < 256) (hc : c < 256) :
    ∃ s1, tuxctl_handle_packet K ![K.MTCP_BIOC_EVENT, b, c] s = some s1 ∧
      s1.button_state = ![b, c] ∧ s1.tty = s.tty ∧ s1.led_state = s.led_state := by
  have h := packet_labels_ne K
  rw [handle_packet_switch, if_neg h.1.symm, if_pos rfl, Nat.mod_eq_of_lt hb, Nat.mod_eq_of_lt hc]
  exact ⟨_, rfl, rfl, rfl, rfl⟩

/-- C15, at an input: the bytes 0x05 and 0x0A. -/
theorem button_event_recorded_witness :
    (0x05 < 256 ∧ 0x0A < 256) ∧
    ∃ s1, tuxctl_handle_packet header ![header.MTCP_BIOC_EVENT, 0x05, 0x0A] (Tux.initial header)
        = some s1 ∧
      s1.button_state = ![0x05, 0x0A] ∧ s1.tty = (Tux.initial header).tty ∧
      s1.led_state = (Tux.initial header).led_state :=
  ⟨by decide, button_event_recorded header 0x05 0x0A (Tux.initial header) (by decide) (by decide)⟩

/-- C16: for every argument and every position `i` of 0..3 whose digit-enable bit `16 + i` is
clear, byte `i + 2` of the command that `set_led` sends is 0x10 when decimal bit `24 + i` is set
and 0x00 when it is clear, whatever the glyph nibble of the position. -/
theorem decimal_without_digit (K : Header) (arg : Nat) (s : Tux) (i : Fin 4)
    (hd : arg.testBit (16 + i.val) = false) :
    ∃ (cmd : List Nat) (s1 : Tux), set_led K arg s = some (0, s1) ∧ s1.tty = s.tty ++ [cmd] ∧
      cmd[i.val + 2]? = some (if arg.testBit (24 + i.val) then 0x10 else 0x00) := by
  refine ⟨encode_display K arg, _, set_led_eq K arg s, rfl, ?_⟩
  have hc : (encode_display K arg)[i.val + 2]? = some (encode_display_byte arg i.val) := by
    fin_cases i <;> rfl
  rw [hc]
  unfold encode_display_byte
  rw [hd]
  simp

/-- C16, at an input: in 0x0100000A position 0 has its decimal on and its digit off. -/
theorem decimal_without_digit_witness :
    (Nat.testBit 0x0100000A (16 + (0 : Fin 4).val) = false) ∧
    ∃ (cmd : List Nat) (s1 : Tux), set_led header 0x0100000A (Tux.initial header) = some (0, s1) ∧
      s1.tty = (Tux.initial header).tty ++ [cmd] ∧
      cmd[(0 : Fin 4).val + 2]? =
        some (if Nat.testBit 0x0100000A (24 + (0 : Fin 4).val) then 0x10 else 0x00) :=
  ⟨by decide, decimal_without_digit header 0x0100000A (Tux.initial header) 0 (by decide)⟩

/-! ## The retained display over a run -/

theorem display_cells_zero (K : Header) : display_cells K 0 = (Tux.initial K).led_state := rfl

theorem encode_display_zero (K : Header) :
    encode_display K 0 = [K.MTCP_LED_SET % 256, 0x0F, 0, 0, 0, 0] := rfl

theorem step_display (K : Header) (e : Event) (s : Tux) (a : Nat)
    (h : s.led_state = display_cells K a) :
    ∃ s1, step K s e = some s1 ∧ s1.led_state = display_cells K (e.display_arg K a) := by
  have hl := request_labels_ne K
  cases e with
  | request cmd arg u =>
    simp only [step, Event.display_arg]
    by_cases h1 : cmd = K.TUX_INIT
    · subst h1
      rw [ioctl_init, if_neg hl.2.1]
      exact ⟨_, rfl, h⟩
    · by_cases h2 : cmd = K.TUX_BUTTONS
      · subst h2
        rw [ioctl_buttons, buttons_eq, if_neg hl.2.2]
        exact ⟨_, rfl, h⟩
      · by_cases h3 : cmd = K.TUX_SET_LED
        · subst h3
          rw [ioctl_set_led, set_led_eq, if_pos rfl]
          exact ⟨_, rfl, rfl⟩
        · rw [ioctl_default K _ cmd arg s h1 h2 h3, if_neg h3]
          exact ⟨_, rfl, h⟩
  | packet op b c =>
    simp only [step, Event.display_arg]
    obtain ⟨s1, e1, e2⟩ := handle_packet_led_state K op b c s
    exact ⟨s1, e1, e2.trans h⟩

theorem run_display (K : Header) (es : List Event) (s : Tux) (a : Nat)
    (h : s.led_state = display_cells K a) :
    ∃ s1, run K es s = some s1 ∧ s1.led_state = display_cells K (es.foldl (Event.display_arg K) a) := by
  induction es generalizing s a with
  | nil => exact ⟨s, rfl, h⟩
  | cons e es ih =>
    obtain ⟨s1, e1, e2⟩ := step_display K e s a h
    obtain ⟨s2, e3, e4⟩ := ih s1 _ e2
    exact ⟨s2, by simp only [run, e1, Option.some_bind, e3], e4⟩

theorem display_arg_none (K : Header) (es : List Event) (a : Nat)
    (h : ∀ cmd arg uncopied, Event.request cmd arg uncopied ∈ es → cmd ≠ K.TUX_SET_LED) :
    es.foldl (Event.display_arg K) a = a := by
  induction es generalizing a with
  | nil => rfl
  | cons e es ih =>
    have he : e.display_arg K a = a := by
      cases e with
      | request cmd arg u =>
        have hc := h cmd arg u (List.mem_cons_self _ _)
        simp [Event.display_arg, hc]
      | packet op b c => rfl
    rw [List.foldl_cons, he]
    exact ih a fun cmd arg u hm => h cmd arg u (List.mem_cons_of_mem _ hm)

/-- C17: from the initial state, every finite sequence of host requests (any id, any argument)
and device packets (any three bytes) is handled to the end, and in the state reached
`led_state[0]` is MTCP_LED_SET (as a char), `led_state[1]` is 0x0F, and `led_state` holds the
bytes that `set_led` sends for the argument of the most recent SetDisplay, or for the argument 0
if there was none, which are `[MTCP_LED_SET, 0x0F, 0, 0, 0, 0]`; a Reset packet arriving then
retransmits these bytes after the two control bytes. -/
theorem retained_display_invariant (K : Header) (es : List Event) (b c : Nat) :
    ∃ (s t u : Tux), run K es (Tux.initial K) = some s ∧
      s.led_state 0 = K.MTCP_LED_SET % 256 ∧ s.led_state 1 = 0x0F ∧
      set_led K (last_display_arg K es) s = some (0, t) ∧
      t.tty = s.tty ++ [List.ofFn s.led_state] ∧ t.led_state = s.led_state ∧
      ((∀ cmd arg uncopied, Event.request cmd arg uncopied ∈ es → cmd ≠ K.TUX_SET_LED) →
        last_display_arg K es = 0) ∧
      encode_display K 0 = [K.MTCP_LED_SET % 256, 0x0F, 0, 0, 0, 0] ∧
      List.ofFn s.led_state = encode_display K (last_display_arg K es) ∧
      tuxctl_handle_packet K ![K.MTCP_RESET, b, c] s = some u ∧
      u.tty = s.tty ++ [[K.MTCP_BIOC_ON % 256], [K.MTCP_LED_USR % 256],
        encode_display K (last_display_arg K es)] := by
  have hl := packet_labels_ne K
  obtain ⟨s, e1, e2⟩ := run_display K es (Tux.initial K) 0 (display_cells_zero K).symm
  have hp : tuxctl_handle_packet K ![K.MTCP_RESET, b, c] s =
      some { s with tty := s.tty ++ [[K.MTCP_BIOC_ON % 256], [K.MTCP_LED_USR % 256],
        List.ofFn s.led_state] } := by
    rw [handle_packet_switch, if_neg hl.2.1.symm, if_neg hl.2.2.2.1.symm, if_pos rfl]
  have e3 : s.led_state = display_cells K (last_display_arg K es) := e2
  refine ⟨s, _, _, e1, ?_, ?_, set_led_eq K _ s, ?_, ?_, display_arg_none K es 0, rfl, ?_, hp, ?_⟩
  · rw [e3]; rfl
  · rw [e3]; rfl
  · show s.tty ++ [encode_display K (last_display_arg K es)] = s.tty ++ [List.ofFn s.led_state]
    rw [e3]; rfl
  · exact e3.symm
  · rw [e3]; rfl
  · show s.tty ++ [[K.MTCP_BIOC_ON % 256], [K.MTCP_LED_USR % 256], List.ofFn s.led_state] = _
    rw [e3]; rfl

/-! ## The display command can be decoded -/

theorem led_digits_injective : ∀ j k : Fin 16, led_digits j = led_digits k → j = k := by
  decide

theorem led_digits_shape : ∀ j : Fin 16, led_digits j ≠ 0 ∧ led_digits j &&& 0x10 = 0 := by
  decide

theorem byte_point_bit : ∀ (j : Fin 16) (d p : Bool),
    ((if d then led_digits j else 0) ||| (if p then 0x10 else 0)) &&& 0x10 =
      if p then 0x10 else 0 := by
  decide

theorem byte_glyph_bits : ∀ (j : Fin 16) (d p : Bool),
    ((if d then led_digits j else 0) ||| (if p then 0x10 else 0)) &&& 0xEF =
      if d then led_digits j else 0 := by
  decide

theorem encode_display_byte_eq (arg i : Nat) (hn : (arg >>> (4 * i)) &&& 0xF < 16) :
    encode_display_byte arg i =
      (if arg.testBit (16 + i) then led_digits ⟨(arg >>> (4 * i)) &&& 0xF, hn⟩ else 0) |||
        (if arg.testBit (24 + i) then 0x10 else 0) := by
  unfold encode_display_byte
  rw [CArray.read_of_lt _ hn]
  rfl

theorem nibble_lt (arg i : Nat) : (arg >>> (4 * i)) &&& 0xF < 16 := by
  rw [and_0xf]
  omega

theorem encode_display_byte_point (arg i : Nat) :
    encode_display_byte arg i &&& 0x10 = if arg.testBit (24 + i) then 0x10 else 0 := by
  rw [encode_display_byte_eq arg i (nibble_lt arg i)]
  exact byte_point_bit _ _ _

theorem encode_display_byte_glyph (arg i : Nat) :
    encode_display_byte arg i &&& 0xEF =
      if arg.testBit (16 + i) then led_digits ⟨(arg >>> (4 * i)) &&& 0xF, nibble_lt arg i⟩
      else 0 := by
  rw [encode_display_byte_eq arg i (nibble_lt arg i)]
  exact byte_glyph_bits _ _ _

theorem encode_display_get (K : Header) (arg : Nat) (i : Fin 4) :
    (encode_display K arg)[i.val + 2]? = some (encode_display_byte arg i.val) := by
  fin_cases i <;> rfl

theorem encode_display_byte_decode (a1 a2 i : Nat)
    (h : encode_display_byte a1 i = encode_display_byte a2 i) :
    a1.testBit (16 + i) = a2.testBit (16 + i) ∧ a1.testBit (24 + i) = a2.testBit (24 + i) ∧
      (a1.testBit (16 + i) = true → (a1 >>> (4 * i)) &&& 0xF = (a2 >>> (4 * i)) &&& 0xF) := by
  have hp := congrArg (· &&& 0x10) h
  have hg := congrArg (· &&& 0xEF) h
  simp only [encode_display_byte_point, encode_display_byte_glyph] at hp hg
  have n1 := (led_digits_shape ⟨(a1 >>> (4 * i)) &&& 0xF, nibble_lt a1 i⟩).1
  have n2 := (led_digits_shape ⟨(a2 >>> (4 * i)) &&& 0xF, nibble_lt a2 i⟩).1
  refine ⟨?_, ?_, ?_⟩
  · cases h1 : a1.testBit (16 + i) <;> cases h2 : a2.testBit (16 + i) <;>
      simp_all
  · cases h1 : a1.testBit (24 + i) <;> cases h2 : a2.testBit (24 + i) <;>
      simp_all
  · intro h1
    cases h2 : a2.testBit (16 + i)
    · simp_all
    · rw [h1, h2] at hg
      simp only [if_true] at hg
      have := led_digits_injective _ _ hg
      exact congrArg Fin.val this

/-- C18: the 16 entries of `led_digits` are pairwise distinct, non-zero and have bit 4 (0x10)
clear; so in the command that `set_led` sends, bit 4 of byte `i + 2` is set exactly when decimal
bit `24 + i` of the argument is set and the other bits of the byte are non-zero exactly when
digit-enable bit `16 + i` is set; and two arguments for which `set_led` sends the same command
agree on bits 16-19, on bits 24-27, and on the glyph nibble of every enabled position. -/
theorem display_decodable (K : Header) (a1 a2 : Nat) (s : Tux) :
    (∀ j k : Fin 16, led_digits j = led_digits k → j = k) ∧
    (∀ j : Fin 16, led_digits j ≠ 0 ∧ led_digits j &&& 0x10 = 0) ∧
    ∃ (cmd1 cmd2 : List Nat) (t1 t2 : Tux),
      set_led K a1 s = some (0, t1) ∧ t1.tty = s.tty ++ [cmd1] ∧
      set_led K a2 s = some (0, t2) ∧ t2.tty = s.tty ++ [cmd2] ∧
      (∀ i : Fin 4, ∃ y, cmd1[i.val + 2]? = some y ∧
        (y &&& 0x10 ≠ 0 ↔ a1.testBit (24 + i.val) = true) ∧
        (y &&& 0xEF ≠ 0 ↔ a1.testBit (16 + i.val) = true)) ∧
      (cmd1 = cmd2 → ∀ i : Fin 4,
        a1.testBit (16 + i.val) = a2.testBit (16 + i.val) ∧
        a1.testBit (24 + i.val) = a2.testBit (24 + i.val) ∧
        (a1.testBit (16 + i.val) = true →
          (a1 >>> (4 * i.val)) &&& 0xF = (a2 >>> (4 * i.val)) &&& 0xF)) := by
  refine ⟨led_digits_injective, led_digits_shape, encode_display K a1, encode_display K a2, _, _,
    set_led_eq K a1 s, rfl, set_led_eq K a2 s, rfl, ?_, ?_⟩
  · intro i
    refine ⟨_, encode_display_get K a1 i, ?_, ?_⟩
    · rw [encode_display_byte_point]
      cases a1.testBit (24 + i.val) <;> simp
    · rw [encode_display_byte_glyph]
      have n1 := (led_digits_shape ⟨(a1 >>> (4 * i.val)) &&& 0xF, nibble_lt a1 i.val⟩).1
      cases a1.testBit (16 + i.val) <;> simp [n1]
  · intro h i
    apply encode_display_byte_decode
    have h1 := encode_display_get K a1 i
    rw [h, encode_display_get K a2 i] at h1
    exact (Option.some.inj h1).symm

/-! ## Array accesses stay in bounds -/

/-- C19: for every argument, every array access of `set_led` is in bounds: for each loop index
`i` of 0..3 the glyph index `(display >> 4*i) & 0xf` is below 16, the size of `led_digits`, the
written index `i + 2` is below 6, the size of `cmd`, and the loop body returns; the body of the
copy loop returns for each index of 0..5; and `set_led` as a whole never takes the out-of-range
branch. -/
theorem set_led_in_bounds (K : Header) (arg : Nat) (s : Tux) :
    (∀ i : Fin 4,
      ((((arg &&& 0xffff) % 2 ^ 16) >>> (4 * i.val)) &&& 0xf) < 16 ∧ i.val + 2 < 6 ∧
      (led_digits.read ((((arg &&& 0xffff) % 2 ^ 16) >>> (4 * i.val)) &&& 0xf)).isSome = true ∧
      ∀ cmd : CArray 6,
        (set_led_digit ((arg &&& 0xffff) % 2 ^ 16) (((arg &&& 0x0f0000) >>> 16) % 2 ^ 8)
          (((arg &&& 0x0f000000) >>> 24) % 2 ^ 8) i.val cmd).isSome = true) ∧
    (∀ (i : Fin 6) (cmd led : CArray 6), (set_led_save cmd i.val led).isSome = true) ∧
    (set_led K arg s).isSome = true := by
  refine ⟨?_, ?_, ?_⟩
  · intro i
    have hn : ((((arg &&& 0xffff) % 2 ^ 16) >>> (4 * i.val)) &&& 0xf) < 16 := by
      rw [and_0xf]; omega
    refine ⟨hn, by omega, ?_, ?_⟩
    · rw [CArray.read_of_lt _ hn]; rfl
    · intro cmd
      rw [set_led_digit_eq arg i.val i.isLt cmd]; rfl
  · intro i cmd led
    simp only [set_led_save, CArray.read_of_lt _ i.isLt, Option.some_bind,
      CArray.write_of_lt _ i.isLt]
    rfl
  · rw [set_led_eq]; rfl

/-! ## A packet that arrives in the middle of `set_led` -/

theorem forLoop_add {σ : Type} (body : Nat → σ → Option σ) (m n : Nat) :
    ∀ (i : Nat) (st : σ),
      forLoop body i (m + n) st = (forLoop body i m st).bind (forLoop body (i + m) n) := by
  induction m with
  | zero =>
    intro i st
    simp [forLoop]
  | succ m ih =>
    intro i st
    rw [Nat.succ_add]
    simp only [forLoop]
    cases body i st with
    | none => rfl
    | some st1 =>
      simp only [Option.some_bind]
      rw [ih (i + 1) st1, Nat.add_assoc, Nat.add_comm 1 m]

theorem set_led_cmd_eq (K : Header) (arg : Nat) :
    set_led_cmd K arg = some (display_cells K arg) := by
  unfold set_led_cmd
  simp only [CArray.write_of_lt _ (show 0 < 6 by decide), CArray.write_of_lt _ (show 1 < 6 by decide),
    Option.some_bind, Fin.mk_zero, Fin.mk_one]
  simp only [forLoop, Nat.zero_add, Nat.reduceAdd, set_led_digit_eq arg 0 (by decide),
    set_led_digit_eq arg 1 (by decide), set_led_digit_eq arg 2 (by decide),
    set_led_digit_eq arg 3 (by decide), Option.some_bind]
  congr 1
  funext j
  fin_cases j <;> rfl

theorem set_led_split (K : Header) (arg k : Nat) (s : Tux) (hk : k ≤ 6) :
    (set_led_until K arg k s).bind (set_led_from K arg k) = set_led K arg s := by
  have h6 := forLoop_add (set_led_save (display_cells K arg)) k (6 - k) 0 s.led_state
  rw [show k + (6 - k) = 6 by omega, set_led_save_loop _ _ (display_cells_lt K arg),
    Nat.zero_add] at h6
  rw [set_led_eq]
  unfold set_led_until set_led_from
  simp only [set_led_cmd_eq, Option.some_bind]
  cases hl : forLoop (set_led_save (display_cells K arg)) 0 k s.led_state with
  | none =>
    rw [hl] at h6
    exact absurd h6 (by simp)
  | some led =>
    rw [hl] at h6
    simp only [Option.some_bind] at h6 ⊢
    rw [← h6]
    simp only [Option.some_bind, readFrom_six, tuxctl_ldisc_put]
    rfl

/-- C13 fails on the code: SetDisplay(0x000F1111), then SetDisplay(0x000F2222) reached by a
Reset packet when its copy loop has done three iterations.  The reset handler sends
`[0xC6, 0x0F, 0xCB, 0x06, 0x06, 0x06]`, where byte 2 is of the new command and bytes 3 to 5 are
of the old one: it is neither of the two commands.  When the interrupted call resumes, it ends
as it would have without the packet. -/
theorem reset_reads_torn_display :
    ((set_led header 0x000F1111 (Tux.initial header)).bind fun r1 =>
      (set_led_until header 0x000F2222 3 r1.2).bind fun s2 =>
      (tuxctl_handle_packet header ![header.MTCP_RESET, 0, 0] s2).bind fun s3 =>
      (set_led_from header 0x000F2222 3 s3).bind fun r4 =>
        some (s3.tty, List.ofFn r4.2.led_state))
      = some ([[0xC6, 0x0F, 0x06, 0x06, 0x06, 0x06], [0xC3], [0xC7],
                [0xC6, 0x0F, 0xCB, 0x06, 0x06, 0x06]],
              [0xC6, 0x0F, 0xCB, 0xCB, 0xCB, 0xCB]) ∧
    encode_display header 0x000F1111 = [0xC6, 0x0F, 0x06, 0x06, 0x06, 0x06] ∧
    encode_display header 0x000F2222 = [0xC6, 0x0F, 0xCB, 0xCB, 0xCB, 0xCB] ∧
    [0xC6, 0x0F, 0xCB, 0x06, 0x06, 0x06] ≠ encode_display header 0x000F1111 ∧
    [0xC6, 0x0F, 0xCB, 0x06, 0x06, 0x06] ≠ encode_display header 0x000F2222 := by
  refine ⟨rfl, rfl, rfl, ?_, ?_⟩ <;> decide

end Tuxctl
